import Mathlib

/-!
Verification development for the Audris (DORA Assessment Agent) risk
factor fusion and classification engine.

Python dictionaries are embedded as association lists of key-value pairs
(insertion order preserved, lookups return the first binding for a key,
assigning a fresh key appends it).  Floating point scores are embedded as
rationals.  The facade `assess_ict_risk` from app/main.py is embedded with
an explicit heap of inner dictionaries so that the aliasing produced by
the shallow `dict.copy()` on line 179 is captured exactly.
-/

namespace Audris

/-- A Python inner dictionary `Dict[str, bool]` of factor name to value. -/
abbrev Inner := List (String × Bool)

/-- A Python dictionary `Dict[str, Dict[str, bool]]` of category name to
factor map (a RiskFactorMap). -/
abbrev RFM := List (String × Inner)

/-- Python dictionary lookup `d.get(k)`: the first binding of key `k`. -/
def pyGet {α : Type} (k : String) : List (String × α) → Option α
  | [] => none
  | kv :: rest => if kv.1 = k then some kv.2 else pyGet k rest

/-- Two-level lookup `m.get(c, \x7b\x7d).get(f)` on a RiskFactorMap. -/
def getFactorOpt (m : RFM) (c f : String) : Option Bool :=
  (pyGet c m).bind (pyGet f)

/-- Two-level lookup defaulting to False, `m.get(c, \x7b\x7d).get(f, False)`. -/
def getFactorD (m : RFM) (c f : String) : Bool :=
  (getFactorOpt m c f).getD false

/-- Embedding of the Python loop
`for factor, value in factors.items(): if factor not in d: d[factor] = value`:
each binding of `factors` whose key is absent from the accumulated
dictionary is appended to it. -/
def addMissingFold (d : Inner) (factors : Inner) : Inner :=
  factors.foldl (fun acc kv => if pyGet kv.1 acc = none then acc ++ [kv] else acc) d

/-! ### Lookup lemmas for the dictionary model -/

theorem pyGet_append {α : Type} (k : String) (l₁ l₂ : List (String × α)) :
    pyGet k (l₁ ++ l₂) =
      match pyGet k l₁ with
      | some v => some v
      | none => pyGet k l₂ := by
  induction l₁ with
  | nil => simp [pyGet]
  | cons kv rest ih =>
    by_cases h : kv.1 = k
    · simp [pyGet, h]
    · simp [pyGet, h, ih]

theorem pyGet_map_kv {α β : Type} (k : String) (h : String → α → β)
    (l : List (String × α)) :
    pyGet k (l.map (fun kv => (kv.1, h kv.1 kv.2))) = (pyGet k l).map (h k) := by
  induction l with
  | nil => simp [pyGet]
  | cons kv rest ih =>
    by_cases hk : kv.1 = k
    · subst hk; simp [pyGet, ih]
    · simp [pyGet, hk, ih]

theorem pyGet_filter_key {α : Type} (k : String) (q : String → Bool)
    (l : List (String × α)) :
    pyGet k (l.filter (fun kv => q kv.1)) = if q k then pyGet k l else none := by
  induction l with
  | nil => simp [pyGet]
  | cons kv rest ih =>
    by_cases hk : kv.1 = k
    · subst hk
      by_cases hq : q kv.1
      · simp [List.filter, hq, pyGet, ih]
      · simp only [List.filter, hq]
        simp only [Bool.false_eq_true, if_false] at *
        simpa [hq] using ih
    · by_cases hq : q kv.1
      · simp [List.filter, hq, pyGet, hk, ih]
      · simp [List.filter, hq, pyGet, hk, ih]

theorem pyGet_addMissingFold_of_some {f : String} {v : Bool}
    (factors : Inner) (d : Inner) (h : pyGet f d = some v) :
    pyGet f (addMissingFold d factors) = some v := by
  induction factors generalizing d with
  | nil => simpa [addMissingFold] using h
  | cons kv rest ih =>
    have hstep : pyGet f (if pyGet kv.1 d = none then d ++ [kv] else d) = some v := by
      split
      · rw [pyGet_append, h]
      · exact h
    simpa [addMissingFold, List.foldl] using ih _ hstep

/-! ### Factor merging

Modelled from the spec: the source file `app/risk/contract_risk_extractor.py`
(method `merge_risk_factors`) is not available; per spec section 4.2 the
merge takes the union of categories across both sources, carries a factor
present in only one source through unchanged, and combines a factor present
in both sources by logical OR. -/

/-- Modelled from the spec: merge of two inner factor maps (the missing
`merge_risk_factors` inner loop).  A factor present in both maps is
combined by logical OR; a factor present in only one map is carried
through unchanged. -/
def mergeInnerFactors (a b : Inner) : Inner :=
  a.map (fun kv => (kv.1, kv.2 || ((pyGet kv.1 b).getD false)))
    ++ b.filter (fun kv => (pyGet kv.1 a).isNone)

/-- Merge of one category of the first source against the second source:
if the category also appears in the second source the two inner factor
maps are merged, otherwise the first source's inner map is carried
through unchanged. -/
def mergeCategory (B : RFM) (c : String) (fa : Inner) : Inner :=
  match pyGet c B with
  | some fb => mergeInnerFactors fa fb
  | none => fa

/-- Modelled from the spec: `ContractRiskExtractor.merge_risk_factors`
(missing from the available sources).  Union of categories across both
sources; a category present in both has its factor maps merged by
`mergeInnerFactors`, a category present in only one source is carried
through unchanged. -/
def merge_risk_factors (A B : RFM) : RFM :=
  A.map (fun cf => (cf.1, mergeCategory B cf.1 cf.2))
    ++ B.filter (fun cf => (pyGet cf.1 A).isNone)

/-- Combination of two optional boolean signals: OR when both present,
carry-through when only one is present. -/
def orMergeOpt : Option Bool → Option Bool → Option Bool
  | some a, some b => some (a || b)
  | some a, none => some a
  | none, ob => ob

/-- Extensional equality of RiskFactorMaps, matching Python dictionary
equality on nested dictionaries: the same categories are present, and for
every category the inner factor maps agree on every factor lookup. -/
def RFMEq (A B : RFM) : Prop :=
  ∀ c, (pyGet c A).isSome = (pyGet c B).isSome ∧
    ∀ f, getFactorOpt A c f = getFactorOpt B c f

theorem pyGet_mergeInnerFactors (f : String) (a b : Inner) :
    pyGet f (mergeInnerFactors a b) = orMergeOpt (pyGet f a) (pyGet f b) := by
  unfold mergeInnerFactors
  rw [pyGet_append, pyGet_map_kv f (fun k v => v || ((pyGet k b).getD false)) a]
  cases ha : pyGet f a with
  | some va =>
    cases hb : pyGet f b with
    | some vb => simp [orMergeOpt, hb]
    | none => simp [orMergeOpt, hb]
  | none =>
    rw [pyGet_filter_key f (fun k => (pyGet k a).isNone) b]
    simp [orMergeOpt, ha]

theorem pyGet_merge_risk_factors (c : String) (A B : RFM) :
    pyGet c (merge_risk_factors A B) =
      match pyGet c A, pyGet c B with
      | some fa, some fb => some (mergeInnerFactors fa fb)
      | some fa, none => some fa
      | none, ob => ob := by
  unfold merge_risk_factors
  rw [pyGet_append, pyGet_map_kv c (mergeCategory B) A]
  cases ha : pyGet c A with
  | some fa => cases hb : pyGet c B with
    | some fb => simp [mergeCategory, hb]
    | none => simp [mergeCategory, hb]
  | none =>
    rw [pyGet_filter_key c (fun k => (pyGet k A).isNone) B]
    simp [ha]

/-! ### Rule-based qualifier

Modelled from the spec: the source file `app/risk/qualifier.py`
(class `ICTRiskQualifier`) is not available; the definitions below follow
spec section 4.3 (fixed category registry with weights summing to 1,
per-category component score = fraction of true registered factors,
weighted aggregate scaled to 0..100, ascending threshold bands inclusive
on the lower edge, hard-critical override combinations, and confidence
derived from the distance of the score to the nearest band boundary,
normalized to 0..1, with the no-recognized-categories special case
yielding confidence 0). -/

/-- The four risk classification bands. -/
inductive RiskClassification where
  | low
  | medium
  | high
  | critical
deriving DecidableEq

/-- One registered category of the qualifier schema: its name, its
registered factor names, and its weight in the composite score. -/
structure CategoryConfig where
  name : String
  factors : List String
  weight : ℚ
deriving DecidableEq

/-- Configuration of the rule-based qualifier: the category registry, the
three ascending interior threshold band boundaries, the classification
bands treated as regulator-critical, and the hard-critical override factor
combinations (each a list of category-factor pairs that must all be
true). -/
structure QualifierConfig where
  categories : List CategoryConfig
  t1 : ℚ
  t2 : ℚ
  t3 : ℚ
  topBands : List RiskClassification
  overrides : List (List (String × String))

/-- Startup validity of a qualifier configuration: weights are nonnegative
and sum to 1, every category has a nonempty factor list, and the threshold
band boundaries ascend strictly inside the 0..100 range. -/
def ValidConfig (cfg : QualifierConfig) : Prop :=
  (cfg.categories.map (fun cat => cat.weight)).sum = 1 ∧
  (∀ cat ∈ cfg.categories, cat.factors ≠ [] ∧ 0 ≤ cat.weight) ∧
  0 < cfg.t1 ∧ cfg.t1 < cfg.t2 ∧ cfg.t2 < cfg.t3 ∧ cfg.t3 < 100

/-- Component score of one category: the count of registered factors of
the category that are true in the input, divided by the number of
registered factors of the category. -/
def componentScore (input : RFM) (cat : CategoryConfig) : ℚ :=
  ((cat.factors.countP (fun f => getFactorD input cat.name f) : ℚ)) /
    (cat.factors.length : ℚ)

/-- Composite risk score: 100 times the weight-averaged component scores
over all registered categories. -/
def riskScoreOf (cfg : QualifierConfig) (input : RFM) : ℚ :=
  100 * (cfg.categories.map (fun cat => cat.weight * componentScore input cat)).sum

/-- Classification of a score by the ascending threshold bands, inclusive
on the lower edge. -/
def classifyScore (cfg : QualifierConfig) (s : ℚ) : RiskClassification :=
  if s < cfg.t1 then .low
  else if s < cfg.t2 then .medium
  else if s < cfg.t3 then .high
  else .critical

/-- Whether the input contains at least one registered category. -/
def hasRecognizedCategory (cfg : QualifierConfig) (input : RFM) : Bool :=
  cfg.categories.any (fun cat => (pyGet cat.name input).isSome)

/-- Distance of a score to the nearest configured band boundary. -/
def nearestBoundaryDistance (cfg : QualifierConfig) (s : ℚ) : ℚ :=
  min |s - cfg.t1| (min |s - cfg.t2| |s - cfg.t3|)

/-- Confidence of a qualification: zero when the input holds no recognized
category (the insufficient-data state), otherwise the distance of the
score to the nearest band boundary normalized into 0..1. -/
def confidenceScore (cfg : QualifierConfig) (input : RFM) (s : ℚ) : ℚ :=
  if hasRecognizedCategory cfg input then min 1 (nearestBoundaryDistance cfg s / 50)
  else 0

/-- Whether one hard-critical override rule fires: every category-factor
pair listed by the rule is true in the input. -/
def overrideFires (input : RFM) (rule : List (String × String)) : Bool :=
  rule.all (fun p => getFactorD input p.1 p.2)

/-- The qualifier's result record. -/
structure ScoreResult where
  risk_score : ℚ
  risk_classification : RiskClassification
  dora_critical : Bool
  confidence : ℚ
  component_scores : List (String × ℚ)
deriving DecidableEq

/-- Modelled from the spec: `ICTRiskQualifier.qualify_ict_risk` (missing
from the available sources), the deterministic weighted threshold-based
scorer of spec section 4.3. -/
def qualify_ict_risk (cfg : QualifierConfig) (input : RFM) : ScoreResult :=
  let score := riskScoreOf cfg input
  let cls := classifyScore cfg score
  { risk_score := score
    risk_classification := cls
    dora_critical :=
      cfg.topBands.contains cls || cfg.overrides.any (overrideFires input)
    confidence := confidenceScore cfg input score
    component_scores :=
      cfg.categories.map (fun cat => (cat.name, componentScore input cat)) }

/-- Illustrative default configuration.  Category and factor names follow
the questionnaire exercised by the integration test
(src/test_dora_app.py); weights and thresholds are the injectable
illustrative defaults the spec calls for, and the override list holds the
spec's example combination of supporting a critical function and being
difficult to substitute. -/
def defaultQualifierConfig : QualifierConfig :=
  { categories :=
      [ { name := "criticality_factors"
          factors :=
            [ "Service supports critical functions"
            , "Service disruption impacts financial stability"
            , "Service disruption impacts operational continuity"
            , "Service disruption affects customers/market participants"
            , "Service is difficult to substitute"
            , "Service handles sensitive/confidential data" ]
          weight := 1/4 }
      , { name := "complexity_factors"
          factors :=
            [ "Multiple sub-outsourcing levels"
            , "Cross-border service provision"
            , "Complex technology stack"
            , "Integration with core systems"
            , "Service provider concentration risk" ]
          weight := 1/4 }
      , { name := "service_type_factors"
          factors :=
            [ "Cloud computing services"
            , "Data analytics services"
            , "Critical support functions"
            , "Network provision services"
            , "Financial support services" ]
          weight := 1/4 }
      , { name := "data_sensitivity_factors"
          factors :=
            [ "Personal customer data"
            , "Financial transaction data"
            , "Authentication/access credentials"
            , "Strategic business data"
            , "Regulatory reporting data" ]
          weight := 1/4 } ]
    t1 := 25
    t2 := 50
    t3 := 75
    topBands := [.critical]
    overrides :=
      [ [ ("criticality_factors", "Service supports critical functions")
        , ("criticality_factors", "Service is difficult to substitute") ] ] }

/-! ### Assessment facade, from app/main.py lines 149 to 219

The optional `contract_analysis` and `service_details` arguments are
represented by the risk factor maps the external extractors produce for
them: the empty map stands for an absent argument or an extraction that
found nothing, matching the Python truthiness tests on lines 168, 174 and
184.  Because line 179 performs a shallow `dict.copy()`, the inner
dictionaries of `enriched_responses` are the same objects as those of the
caller's `responses`; the embedding therefore threads an explicit heap of
inner dictionaries, with the outer dictionaries holding references into
it. -/

/-- State of the enrichment loop of `assess_ict_risk`: the caller's
`responses` outer dictionary, the `enriched_responses` outer dictionary
(initially a shallow copy sharing all inner-dictionary references), and
the heap of inner dictionaries both reference. -/
structure AState where
  outerR : List (String × Nat)
  outerE : List (String × Nat)
  heap : List Inner
deriving DecidableEq

/-- Outer dictionary referencing the inner dictionaries of a RiskFactorMap
at consecutive heap addresses starting at `i`. -/
def initOuter : RFM → Nat → List (String × Nat)
  | [], _ => []
  | cf :: rest, i => (cf.1, i) :: initOuter rest (i + 1)

/-- Initial state of the enrichment loop: the heap holds the caller's
inner dictionaries, and both outer dictionaries reference them (the
shallow copy of line 179). -/
def initAState (responses : RFM) : AState :=
  { outerR := initOuter responses 0
    outerE := initOuter responses 0
    heap := responses.map (fun cf => cf.2) }

/-- One iteration of the loop on lines 191 to 198 for one extracted
category: when the category already exists in `enriched_responses` the
referenced inner dictionary (possibly shared with the caller's map) gains
the extracted factors it is missing; otherwise a fresh inner dictionary is
allocated and bound in `enriched_responses` only. -/
def enrichStep (st : AState) (cf : String × Inner) : AState :=
  match pyGet cf.1 st.outerE with
  | some r =>
    { st with heap := st.heap.set r (addMissingFold (st.heap.getD r []) cf.2) }
  | none =>
    { st with
        outerE := st.outerE ++ [(cf.1, st.heap.length)]
        heap := st.heap ++ [addMissingFold [] cf.2] }

/-- Value of an outer dictionary under a heap: each reference is replaced
by the inner dictionary it points to. -/
def viewOuter (outer : List (String × Nat)) (heap : List Inner) : RFM :=
  outer.map (fun p => (p.1, heap.getD p.2 []))

/-- The dictionary returned by `assess_ict_risk` (the timestamp and the
nested assessment payload keys that the claims do not mention are kept;
`original_responses` is the caller's `responses` object as it stands when
the call returns). -/
structure AssessmentOutput where
  responses : RFM
  original_responses : RFM
  auto_detected_factors : List String
  assessment_results : ScoreResult
deriving DecidableEq

/-- Embedding of `DORAAssessmentAgent.assess_ict_risk` (app/main.py lines
149 to 219).  `contract_rf` and `service_rf` are the factor maps produced
by the external extractors for the two optional arguments, the empty map
when an argument is absent.  The merge of the two extracted maps, the
gap-filling enrichment loop over the shallow-copied responses, the
deduplicated list of extracted factor names that are true, and the final
result dictionary follow the source line by line. -/
def assess_ict_risk (responses contract_rf service_rf : RFM) : AssessmentOutput :=
  let extracted : RFM :=
    if contract_rf.isEmpty && service_rf.isEmpty then []
    else merge_risk_factors contract_rf service_rf
  let st := extracted.foldl enrichStep (initAState responses)
  let enriched := viewOuter st.outerE st.heap
  { responses := enriched
    original_responses := viewOuter st.outerR st.heap
    auto_detected_factors :=
      (extracted.flatMap (fun cf => (cf.2.filter (fun kv => kv.2)).map (fun kv => kv.1))).dedup
    assessment_results := qualify_ict_risk defaultQualifierConfig enriched }

/-! ### Contract risk extraction wrapper, app/main.py lines 126 to 147 -/

/-- A raised Python exception, abstracted to its rendered message. -/
structure PyException where
  message : String

/-- Contract analysis results are built by the external contract pipeline
and only passed through to the underlying extractor here; their content is
abstracted. -/
abbrev ContractAnalysis := List (String × String)

/-- Embedding of `DORAAssessmentAgent.extract_risk_factors_from_contract`
(app/main.py lines 126 to 147).  The underlying
`ContractRiskExtractor.extract_risk_factors` call is external code that
may raise, so it is passed in as a fallible function; the try/except of
the source returns its factors on success and degrades to the empty map
when it raises. -/
def extract_risk_factors_from_contract
    (extractor : ContractAnalysis → Except PyException RFM)
    (contract_analysis : ContractAnalysis) : RFM :=
  match extractor contract_analysis with
  | .ok risk_factors => risk_factors
  | .error _ => []

/-! ### Statistical classifier

Modelled from the spec: the source file `app/risk/ml_risk_scorer.py`
(object `ml_risk_scorer`) is not available; the definitions below follow
spec sections 3 (TrainedModelState lifecycle), 4.4 (train / predict /
is_trained / synthetic data generation) and 7 (ModelNotTrainedError).
The fitted parameters are the flattened labeled training vectors; predict
scores each class by a Laplace-smoothed count of training vectors of that
class equal to the flattened input, normalizes the four class scores into
a probability distribution, and reports the argmax class with its
probability as confidence. -/

/-- The list of the four classification labels, in ascending order. -/
def allClassifications : List RiskClassification :=
  [.low, .medium, .high, .critical]

/-- Representative scalar score of a classification band (its midpoint),
used for the class-weighted expected risk score of a prediction. -/
def classMidScore : RiskClassification → ℚ
  | .low => 25/2
  | .medium => 75/2
  | .high => 125/2
  | .critical => 175/2

/-- Modelled from the spec: the classifier's persisted fitted state, the
flattened labeled training vectors plus training metadata. -/
structure TrainedModelState where
  samples : List (List Bool × RiskClassification)
  sampleCount : Nat
deriving DecidableEq

/-- Modelled from the spec: the classifier engine; `trained` is the
current trained state, absent on a fresh start with no persisted state. -/
structure MLRiskScorer where
  trained : Option TrainedModelState
deriving DecidableEq

/-- A freshly initialized classifier with no persisted trained state. -/
def freshUntrained : MLRiskScorer := { trained := none }

/-- Modelled from the spec: `is_model_trained`, reflecting whether a
trained state (in-memory or reloaded from persistence) is present. -/
def is_model_trained (s : MLRiskScorer) : Bool :=
  s.trained.isSome

/-- The explicit failure predict raises on an untrained model. -/
inductive PredictError where
  | modelNotTrained
deriving DecidableEq

/-- Flattening of a factor map against the registered schema: one boolean
per registered factor, in registry order, missing factors defaulting to
false. -/
def flattenFactors (cfg : QualifierConfig) (m : RFM) : List Bool :=
  cfg.categories.flatMap (fun cat => cat.factors.map (fun f => getFactorD m cat.name f))

/-- Laplace-smoothed score of one class for a flattened input vector: one
plus the number of stored training vectors of that class equal to the
input vector. -/
def classScore (st : TrainedModelState) (v : List Bool) (c : RiskClassification) : ℚ :=
  1 + (st.samples.countP (fun p => p.1 = v && p.2 = c) : ℚ)

/-- Normalization constant of the class scores: their sum over the four
classes. -/
def classScoreTotal (st : TrainedModelState) (v : List Bool) : ℚ :=
  (allClassifications.map (classScore st v)).sum

/-- Predicted class: the argmax of the class scores over the four classes
(first maximum wins). -/
def predictedClass (st : TrainedModelState) (v : List Bool) : RiskClassification :=
  [RiskClassification.medium, .high, .critical].foldl
    (fun best c => if classScore st v best < classScore st v c then c else best) .low

/-- The prediction payload: the rule-qualifier result shape with the added
per-class probability map. -/
structure Prediction where
  risk_score : ℚ
  risk_classification : RiskClassification
  dora_critical : Bool
  confidence : ℚ
  probabilities : List (RiskClassification × ℚ)
deriving DecidableEq

/-- Prediction from a fitted state on a flattened input vector. -/
def predictFromState (cfg : QualifierConfig) (st : TrainedModelState)
    (v : List Bool) : Prediction :=
  let total := classScoreTotal st v
  let cls := predictedClass st v
  { risk_score :=
      (allClassifications.map (fun c => (classScore st v c / total) * classMidScore c)).sum
    risk_classification := cls
    dora_critical := cfg.topBands.contains cls
    confidence := classScore st v cls / total
    probabilities := allClassifications.map (fun c => (c, classScore st v c / total)) }

/-- Status of a training run. -/
inductive TrainStatus where
  | success
  | failure
deriving DecidableEq

/-- Structured result of a training run. -/
structure TrainOutcome where
  status : TrainStatus
  accuracy : ℚ
  message : String
deriving DecidableEq

/-- Minimum number of samples training requires. -/
def minTrainingSamples : Nat := 10

/-- Modelled from the spec: `train` (missing from the available sources).
Too few samples or a single-label dataset yield a failure status and leave
the previous state untouched; otherwise the flattened labeled vectors are
fitted, the self-classification accuracy is reported, and the new trained
state atomically replaces the old one. -/
def train (cfg : QualifierConfig) (s : MLRiskScorer)
    (samples : List (RFM × RiskClassification)) : TrainOutcome × MLRiskScorer :=
  if samples.length < minTrainingSamples then
    ({ status := .failure, accuracy := 0
       message := "insufficient training samples" }, s)
  else if ((samples.map (fun p => p.2)).dedup.length ≤ 1) then
    ({ status := .failure, accuracy := 0
       message := "training data holds a single label" }, s)
  else
    let fitted : TrainedModelState :=
      { samples := samples.map (fun p => (flattenFactors cfg p.1, p.2))
        sampleCount := samples.length }
    let correct := samples.countP (fun p =>
      (predictFromState cfg fitted (flattenFactors cfg p.1)).risk_classification = p.2)
    ({ status := .success, accuracy := (correct : ℚ) / (samples.length : ℚ)
       message := "model trained" }, { trained := some fitted })

/-- Modelled from the spec: `predict_risk` (missing from the available
sources).  Fails explicitly with `ModelNotTrainedError` when no trained
state is present, never returning a default score; otherwise flattens the
input against the schema and predicts from the fitted state. -/
def predict_risk (cfg : QualifierConfig) (s : MLRiskScorer) (m : RFM) :
    Except PredictError Prediction :=
  match s.trained with
  | none => .error .modelNotTrained
  | some st => .ok (predictFromState cfg st (flattenFactors cfg m))

/-- Linear congruential step for the synthetic data generator. -/
def lcgNext (seed : Nat) : Nat :=
  (seed * 1103515245 + 12345) % 2147483648

/-- Pseudo-random boolean drawn from a generator state. -/
def randBool (seed : Nat) : Bool :=
  (seed / 65536) % 2 = 1

/-- Pseudo-random inner factor map over a list of registered factor names,
threading the generator state. -/
def genInner : List String → Nat → Inner × Nat
  | [], seed => ([], seed)
  | f :: rest, seed =>
    let seed1 := lcgNext seed
    let (restInner, seed2) := genInner rest seed1
    ((f, randBool seed1) :: restInner, seed2)

/-- Pseudo-random factor map over the registered categories, threading the
generator state. -/
def genFactorMap : List CategoryConfig → Nat → RFM × Nat
  | [], seed => ([], seed)
  | cat :: rest, seed =>
    let (inner, seed1) := genInner cat.factors seed
    let (restMap, seed2) := genFactorMap rest seed1
    ((cat.name, inner) :: restMap, seed2)

/-- Modelled from the spec: `generate_synthetic_training_data` (missing
from the available sources).  Produces `n` samples by pseudo-randomly
populating the registered factor schema, each labeled with the rule-based
qualifier's own classification of the sample. -/
def generate_synthetic_training_data (cfg : QualifierConfig) :
    Nat → Nat → List (RFM × RiskClassification)
  | 0, _ => []
  | n + 1, seed =>
    let (m, seed1) := genFactorMap cfg.categories seed
    (m, (qualify_ict_risk cfg m).risk_classification) ::
      generate_synthetic_training_data cfg n seed1

/-! ### Invariant of the enrichment loop and concrete inputs used by
witnesses -/

/-- Invariant of the enrichment loop: the category `c` is bound in
`enriched_responses` to a live heap reference whose inner dictionary still
answers `some v` for the factor `f`. -/
def EnrichInv (c f : String) (v : Bool) (st : AState) : Prop :=
  ∃ r, pyGet c st.outerE = some r ∧ r < st.heap.length ∧
    pyGet f (st.heap.getD r []) = some v

/-- Factor map holding exactly the two override factors of the default
configuration true and every other registered factor false. -/
def overrideOnlyInput : RFM :=
  [ ("criticality_factors",
      [ ("Service supports critical functions", true)
      , ("Service disruption impacts financial stability", false)
      , ("Service disruption impacts operational continuity", false)
      , ("Service disruption affects customers/market participants", false)
      , ("Service is difficult to substitute", true)
      , ("Service handles sensitive/confidential data", false) ])
  , ("complexity_factors",
      [ ("Multiple sub-outsourcing levels", false)
      , ("Cross-border service provision", false)
      , ("Complex technology stack", false)
      , ("Integration with core systems", false)
      , ("Service provider concentration risk", false) ])
  , ("service_type_factors",
      [ ("Cloud computing services", false)
      , ("Data analytics services", false)
      , ("Critical support functions", false)
      , ("Network provision services", false)
      , ("Financial support services", false) ])
  , ("data_sensitivity_factors",
      [ ("Personal customer data", false)
      , ("Financial transaction data", false)
      , ("Authentication/access credentials", false)
      , ("Strategic business data", false)
      , ("Regulatory reporting data", false) ]) ]

/-- A concrete labeled dataset of 100 samples covering all four
classification labels. -/
def fourLabelSamples : List (RFM × RiskClassification) :=
  List.replicate 97
      (([("criticality_factors", [("Service supports critical functions", true)])] : RFM),
        RiskClassification.low)
    ++ [ (([] : RFM), RiskClassification.medium)
       , (([] : RFM), RiskClassification.high)
       , (([] : RFM), RiskClassification.critical) ]

/-! ## Theorems -/

/-! ### Merge algebra -/

theorem orMergeOpt_self (x : Option Bool) : orMergeOpt x x = x := by
  cases x <;> simp [orMergeOpt]

theorem orMergeOpt_comm (x y : Option Bool) : orMergeOpt x y = orMergeOpt y x := by
  cases x <;> cases y <;> simp [orMergeOpt, Bool.or_comm]

theorem orMergeOpt_none_right (x : Option Bool) : orMergeOpt x none = x := by
  cases x <;> simp [orMergeOpt]

theorem getFactorOpt_merge (A B : RFM) (c f : String) :
    getFactorOpt (merge_risk_factors A B) c f
      = orMergeOpt (getFactorOpt A c f) (getFactorOpt B c f) := by
  unfold getFactorOpt
  rw [pyGet_merge_risk_factors]
  cases ha : pyGet c A with
  | some fa =>
    cases hb : pyGet c B with
    | some fb => simp [pyGet_mergeInnerFactors]
    | none => simp [orMergeOpt_none_right]
  | none =>
    cases hb : pyGet c B with
    | some fb => simp [orMergeOpt]
    | none => simp [orMergeOpt]

theorem isSome_pyGet_merge (A B : RFM) (c : String) :
    (pyGet c (merge_risk_factors A B)).isSome
      = ((pyGet c A).isSome || (pyGet c B).isSome) := by
  rw [pyGet_merge_risk_factors]
  cases ha : pyGet c A with
  | some fa => cases hb : pyGet c B with
    | some fb => simp
    | none => simp
  | none => cases hb : pyGet c B with
    | some fb => simp
    | none => simp

/-- Claim C4: the merge of risk factor maps is idempotent
(`merge(A,A) == A`) and commutative (`merge(A,B) == merge(B,A)`) under
Python dictionary equality, ranges over the union of the categories of
both sources, combines a factor present in both sources by logical OR,
and carries a factor present in only one source through unchanged. -/
theorem merge_risk_factors_algebra (A B : RFM) :
    RFMEq (merge_risk_factors A A) A ∧
    RFMEq (merge_risk_factors A B) (merge_risk_factors B A) ∧
    (∀ c, (pyGet c (merge_risk_factors A B)).isSome
        = ((pyGet c A).isSome || (pyGet c B).isSome)) ∧
    (∀ c f, getFactorOpt (merge_risk_factors A B) c f
        = orMergeOpt (getFactorOpt A c f) (getFactorOpt B c f)) := by
  refine ⟨?_, ?_, isSome_pyGet_merge A B, getFactorOpt_merge A B⟩
  · intro c
    constructor
    · rw [isSome_pyGet_merge]; cases pyGet c A <;> simp
    · intro f
      rw [getFactorOpt_merge, orMergeOpt_self]
  · intro c
    constructor
    · rw [isSome_pyGet_merge, isSome_pyGet_merge, Bool.or_comm]
    · intro f
      rw [getFactorOpt_merge, getFactorOpt_merge, orMergeOpt_comm]

/-! ### Contract extraction wrapper -/

/-- Claim C3: `extract_risk_factors_from_contract` never propagates a
failure of the underlying extraction: when the underlying extractor
raises it returns the empty factor map, and when the extractor succeeds
it returns the extracted factor map; being a total function into factor
maps, it never raises itself. -/
theorem extract_risk_factors_never_fails
    (extractor : ContractAnalysis → Except PyException RFM)
    (ca : ContractAnalysis) :
    (∀ e, extractor ca = .error e →
      extract_risk_factors_from_contract extractor ca = []) ∧
    (∀ rf, extractor ca = .ok rf →
      extract_risk_factors_from_contract extractor ca = rf) := by
  constructor
  · intro e h
    simp [extract_risk_factors_from_contract, h]
  · intro rf h
    simp [extract_risk_factors_from_contract, h]

theorem extract_risk_factors_never_fails_witness :
    ((fun _ : ContractAnalysis =>
        (Except.error ⟨"ValueError: malformed contract analysis"⟩ :
          Except PyException RFM)) [] =
      Except.error ⟨"ValueError: malformed contract analysis"⟩) ∧
    extract_risk_factors_from_contract
      (fun _ => .error ⟨"ValueError: malformed contract analysis"⟩) [] = [] :=
  ⟨rfl,
    (extract_risk_factors_never_fails
        (fun _ => .error ⟨"ValueError: malformed contract analysis"⟩) []).1
      ⟨"ValueError: malformed contract analysis"⟩ rfl⟩

/-! ### Untrained classifier -/

/-- Claim C7: on a freshly initialized classifier with no persisted
trained state, `is_model_trained` is false and every `predict_risk` call
fails explicitly with `ModelNotTrainedError`, never returning a default
or guessed prediction. -/
theorem untrained_predict_fails :
    is_model_trained freshUntrained = false ∧
    ∀ cfg m, predict_risk cfg freshUntrained m =
      Except.error PredictError.modelNotTrained :=
  ⟨rfl, fun _ _ => rfl⟩

/-! ### Qualifier bounds -/

theorem validConfig_default : ValidConfig defaultQualifierConfig := by
  refine ⟨?_, ?_, ?_, ?_, ?_, ?_⟩
  · norm_num [defaultQualifierConfig]
  · intro cat hcat
    simp only [defaultQualifierConfig, List.mem_cons, List.mem_singleton] at hcat
    rcases hcat with rfl | rfl | rfl | rfl | h
    · exact ⟨by simp, by norm_num⟩
    · exact ⟨by simp, by norm_num⟩
    · exact ⟨by simp, by norm_num⟩
    · exact ⟨by simp, by norm_num⟩
    · simp at h
  · norm_num [defaultQualifierConfig]
  · norm_num [defaultQualifierConfig]
  · norm_num [defaultQualifierConfig]
  · norm_num [defaultQualifierConfig]

theorem componentScore_nonneg (input : RFM) (cat : CategoryConfig) :
    0 ≤ componentScore input cat :=
  div_nonneg (Nat.cast_nonneg _) (Nat.cast_nonneg _)

theorem componentScore_le_one (input : RFM) (cat : CategoryConfig)
    (h : cat.factors ≠ []) : componentScore input cat ≤ 1 := by
  have hlen : 0 < (cat.factors.length : ℚ) := by
    exact_mod_cast List.length_pos.mpr h
  rw [componentScore, div_le_one hlen]
  exact_mod_cast List.countP_le_length _

theorem riskScoreOf_nonneg (cfg : QualifierConfig) (input : RFM)
    (h : ValidConfig cfg) : 0 ≤ riskScoreOf cfg input := by
  refine mul_nonneg (by norm_num) (List.sum_nonneg ?_)
  intro x hx
  obtain ⟨cat, hcat, rfl⟩ := List.mem_map.mp hx
  exact mul_nonneg (h.2.1 cat hcat).2 (componentScore_nonneg input cat)

theorem riskScoreOf_le_100 (cfg : QualifierConfig) (input : RFM)
    (h : ValidConfig cfg) : riskScoreOf cfg input ≤ 100 := by
  have hsum : (cfg.categories.map (fun cat => cat.weight * componentScore input cat)).sum
      ≤ (cfg.categories.map (fun cat => cat.weight)).sum := by
    apply List.sum_le_sum
    intro cat hcat
    have hw := (h.2.1 cat hcat).2
    have hc := componentScore_le_one input cat (h.2.1 cat hcat).1
    calc cat.weight * componentScore input cat ≤ cat.weight * 1 :=
          mul_le_mul_of_nonneg_left hc hw
      _ = cat.weight := mul_one _
  calc riskScoreOf cfg input
      ≤ 100 * (cfg.categories.map (fun cat => cat.weight)).sum := by
        exact mul_le_mul_of_nonneg_left hsum (by norm_num)
    _ = 100 := by rw [h.1]; norm_num

theorem confidenceScore_bounds (cfg : QualifierConfig) (input : RFM) (s : ℚ) :
    0 ≤ confidenceScore cfg input s ∧ confidenceScore cfg input s ≤ 1 := by
  unfold confidenceScore
  split
  · constructor
    · refine le_min (by norm_num) (div_nonneg ?_ (by norm_num))
      exact le_min (abs_nonneg _) (le_min (abs_nonneg _) (abs_nonneg _))
    · exact min_le_left _ _
  · norm_num

/-- Claim C5: for every input factor map and every valid configuration,
the qualifier's per-category component scores lie in the interval from 0
to 1, the risk score lies in the interval from 0 to 100, the confidence
lies in the interval from 0 to 1 (all rational, hence finite), and the
classification is the band determined by the configured thresholds. -/
theorem qualifier_output_bounds (cfg : QualifierConfig) (input : RFM)
    (h : ValidConfig cfg) :
    (∀ p ∈ (qualify_ict_risk cfg input).component_scores, 0 ≤ p.2 ∧ p.2 ≤ 1) ∧
    0 ≤ (qualify_ict_risk cfg input).risk_score ∧
    (qualify_ict_risk cfg input).risk_score ≤ 100 ∧
    0 ≤ (qualify_ict_risk cfg input).confidence ∧
    (qualify_ict_risk cfg input).confidence ≤ 1 ∧
    (qualify_ict_risk cfg input).risk_classification
      = classifyScore cfg ((qualify_ict_risk cfg input).risk_score) := by
  refine ⟨?_, riskScoreOf_nonneg cfg input h, riskScoreOf_le_100 cfg input h,
    (confidenceScore_bounds cfg input _).1, (confidenceScore_bounds cfg input _).2, rfl⟩
  intro p hp
  simp only [qualify_ict_risk, List.mem_map] at hp
  obtain ⟨cat, hcat, rfl⟩ := hp
  exact ⟨componentScore_nonneg input cat,
    componentScore_le_one input cat (h.2.1 cat hcat).1⟩

theorem qualifier_output_bounds_witness :
    ValidConfig defaultQualifierConfig ∧
    0 ≤ (qualify_ict_risk defaultQualifierConfig overrideOnlyInput).risk_score ∧
    (qualify_ict_risk defaultQualifierConfig overrideOnlyInput).risk_score ≤ 100 ∧
    0 ≤ (qualify_ict_risk defaultQualifierConfig overrideOnlyInput).confidence ∧
    (qualify_ict_risk defaultQualifierConfig overrideOnlyInput).confidence ≤ 1 := by
  have h := qualifier_output_bounds defaultQualifierConfig overrideOnlyInput
    validConfig_default
  exact ⟨validConfig_default, h.2.1, h.2.2.1, h.2.2.2.1, h.2.2.2.2.1⟩

/-! ### Empty input -/

/-- Claim C6: qualifying an input with no recognized categories at all
succeeds (the qualifier is a total function) and yields risk score 0, the
lowest classification band, and confidence 0. -/
theorem qualifier_empty_input (cfg : QualifierConfig) (input : RFM)
    (h : ValidConfig cfg)
    (habs : ∀ cat ∈ cfg.categories, pyGet cat.name input = none) :
    (qualify_ict_risk cfg input).risk_score = 0 ∧
    (qualify_ict_risk cfg input).risk_classification = RiskClassification.low ∧
    (qualify_ict_risk cfg input).confidence = 0 := by
  have hcomp : ∀ cat ∈ cfg.categories, componentScore input cat = 0 := by
    intro cat hcat
    have hcount : cat.factors.countP (fun f => getFactorD input cat.name f) = 0 := by
      rw [List.countP_eq_zero]
      intro f _
      simp [getFactorD, getFactorOpt, habs cat hcat]
    simp [componentScore, hcount]
  have hscore : riskScoreOf cfg input = 0 := by
    unfold riskScoreOf
    have : (cfg.categories.map (fun cat => cat.weight * componentScore input cat)).sum = 0 := by
      apply List.sum_eq_zero
      intro x hx
      obtain ⟨cat, hcat, rfl⟩ := List.mem_map.mp hx
      rw [hcomp cat hcat, mul_zero]
    rw [this, mul_zero]
  have hrec : hasRecognizedCategory cfg input = false := by
    rw [hasRecognizedCategory, List.any_eq_false]
    intro cat hcat
    simp [habs cat hcat]
  refine ⟨hscore, ?_, ?_⟩
  · show classifyScore cfg (riskScoreOf cfg input) = RiskClassification.low
    rw [hscore, classifyScore, if_pos h.2.2.1]
  · show confidenceScore cfg input (riskScoreOf cfg input) = 0
    rw [confidenceScore, hrec]
    simp

theorem qualifier_empty_input_witness :
    ValidConfig defaultQualifierConfig ∧
    (qualify_ict_risk defaultQualifierConfig []).risk_score = 0 ∧
    (qualify_ict_risk defaultQualifierConfig []).risk_classification
      = RiskClassification.low ∧
    (qualify_ict_risk defaultQualifierConfig []).confidence = 0 := by
  have h := qualifier_empty_input defaultQualifierConfig [] validConfig_default
    (by decide)
  exact ⟨validConfig_default, h.1, h.2.1, h.2.2⟩

/-! ### Hard-critical override -/

/-- Claim C8: whenever a configured hard-critical override rule has all of
its factors true in the input, the qualifier outputs `dora_critical =
true`, regardless of the computed score and band; in particular a map with
only the two default override factors true is regulator-critical. -/
theorem hard_critical_override (cfg : QualifierConfig) (input : RFM)
    (rule : List (String × String))
    (hr : rule ∈ cfg.overrides)
    (hall : ∀ p ∈ rule, getFactorD input p.1 p.2 = true) :
    (qualify_ict_risk cfg input).dora_critical = true := by
  have hfires : overrideFires input rule = true :=
    List.all_eq_true.mpr hall
  have hany : cfg.overrides.any (overrideFires input) = true :=
    List.any_eq_true.mpr ⟨rule, hr, hfires⟩
  show (cfg.topBands.contains (classifyScore cfg (riskScoreOf cfg input))
      || cfg.overrides.any (overrideFires input)) = true
  rw [hany, Bool.or_true]

theorem hard_critical_override_witness :
    ([ ("criticality_factors", "Service supports critical functions")
     , ("criticality_factors", "Service is difficult to substitute") ]
        ∈ defaultQualifierConfig.overrides) ∧
    (qualify_ict_risk defaultQualifierConfig overrideOnlyInput).dora_critical = true := by
  refine ⟨by decide, ?_⟩
  exact hard_critical_override defaultQualifierConfig overrideOnlyInput
    [ ("criticality_factors", "Service supports critical functions")
    , ("criticality_factors", "Service is difficult to substitute") ]
    (by decide) (by decide)

/-! ### Heap lemmas for the enrichment loop -/

theorem getD_set_self (heap : List Inner) (r : Nat) (x : Inner)
    (h : r < heap.length) : (heap.set r x).getD r [] = x := by
  induction heap generalizing r with
  | nil => simp at h
  | cons a rest ih =>
    cases r with
    | zero => rfl
    | succ n => simpa using ih n (by simpa using h)

theorem getD_set_ne (heap : List Inner) (rp r : Nat) (x : Inner)
    (h : rp ≠ r) : (heap.set rp x).getD r [] = heap.getD r [] := by
  induction heap generalizing rp r with
  | nil => rfl
  | cons a rest ih =>
    cases rp with
    | zero =>
      cases r with
      | zero => exact absurd rfl h
      | succ m => simp [List.set]
    | succ n =>
      cases r with
      | zero => simp [List.set]
      | succ m =>
        simp only [List.set, List.getD_cons_succ]
        exact ih _ _ (fun hnm => h (by omega))

theorem getD_append_left (heap : List Inner) (x : Inner) (r : Nat)
    (h : r < heap.length) : (heap ++ [x]).getD r [] = heap.getD r [] := by
  induction heap generalizing r with
  | nil => simp at h
  | cons a rest ih =>
    cases r with
    | zero => rfl
    | succ n => simpa using ih n (by simpa using h)

theorem pyGet_append_left_of_some {α : Type} {k : String}
    {l₁ : List (String × α)} {a : α} (l₂ : List (String × α))
    (h : pyGet k l₁ = some a) : pyGet k (l₁ ++ l₂) = some a := by
  rw [pyGet_append, h]

theorem enrichStep_inv {c f : String} {v : Bool} (st : AState)
    (cf : String × Inner) (h : EnrichInv c f v st) :
    EnrichInv c f v (enrichStep st cf) := by
  obtain ⟨r, hE, hlt, hget⟩ := h
  unfold enrichStep
  cases hcf : pyGet cf.1 st.outerE with
  | some rp =>
    refine ⟨r, hE, ?_, ?_⟩
    · simpa [List.length_set] using hlt
    · by_cases hrr : rp = r
      · subst hrr
        rw [getD_set_self _ _ _ hlt]
        exact pyGet_addMissingFold_of_some _ _ hget
      · rw [getD_set_ne _ _ _ _ hrr]
        exact hget
  | none =>
    refine ⟨r, pyGet_append_left_of_some _ hE, ?_, ?_⟩
    · simp only [List.length_append, List.length_cons, List.length_nil]
      omega
    · rw [getD_append_left _ _ _ hlt]
      exact hget

theorem foldl_enrich_inv {c f : String} {v : Bool}
    (l : List (String × Inner)) (st : AState) (h : EnrichInv c f v st) :
    EnrichInv c f v (l.foldl enrichStep st) := by
  induction l generalizing st with
  | nil => exact h
  | cons cf rest ih => exact ih _ (enrichStep_inv st cf h)

theorem initOuter_find (responses : RFM) :
    ∀ (i : Nat) {c : String} {inner : Inner}, pyGet c responses = some inner →
    ∃ j, pyGet c (initOuter responses i) = some (i + j) ∧ j < responses.length ∧
      (responses.map (fun cf => cf.2)).getD j [] = inner := by
  induction responses with
  | nil =>
    intro i c inner h
    simp [pyGet] at h
  | cons cf rest ih =>
    intro i c inner h
    by_cases hc : cf.1 = c
    · refine ⟨0, ?_, by simp, ?_⟩
      · simp [initOuter, pyGet, hc]
      · rw [pyGet, if_pos hc] at h
        simpa using Option.some.inj h
    · rw [pyGet, if_neg hc] at h
      obtain ⟨j, hj1, hj2, hj3⟩ := ih (i + 1) h
      refine ⟨j + 1, ?_, by simpa using Nat.succ_lt_succ hj2, by simpa using hj3⟩
      have hstep : pyGet c (initOuter (cf :: rest) i)
          = pyGet c (initOuter rest (i + 1)) := by
        simp [initOuter, pyGet, hc]
      rw [hstep, hj1]
      congr 1
      omega

theorem initAState_inv {c f : String} {v : Bool} (responses : RFM)
    (h : getFactorOpt responses c f = some v) :
    EnrichInv c f v (initAState responses) := by
  obtain ⟨inner, hc, hf⟩ := Option.bind_eq_some.mp h
  obtain ⟨j, hj1, hj2, hj3⟩ := initOuter_find responses 0 hc
  refine ⟨j, ?_, ?_, ?_⟩
  · show pyGet c (initOuter responses 0) = some j
    simpa using hj1
  · show j < (responses.map (fun cf => cf.2)).length
    simpa using hj2
  · show pyGet f ((responses.map (fun cf => cf.2)).getD j []) = some v
    rw [hj3]
    exact hf

theorem pyGet_viewOuter (c : String) (outer : List (String × Nat))
    (heap : List Inner) :
    pyGet c (viewOuter outer heap) = (pyGet c outer).map (fun r => heap.getD r []) :=
  pyGet_map_kv c (fun _ r => heap.getD r []) outer

theorem assess_responses_eq (responses contract_rf service_rf : RFM) :
    (assess_ict_risk responses contract_rf service_rf).responses
      = viewOuter
          ((if contract_rf.isEmpty && service_rf.isEmpty then ([] : RFM)
            else merge_risk_factors contract_rf service_rf).foldl enrichStep
            (initAState responses)).outerE
          ((if contract_rf.isEmpty && service_rf.isEmpty then ([] : RFM)
            else merge_risk_factors contract_rf service_rf).foldl enrichStep
            (initAState responses)).heap := rfl

/-! ### Manual precedence -/

/-- Claim C1: for every category and factor explicitly present in the
manual responses map, the enriched responses used for qualification and
returned in the result's responses field hold the manual value, for every
pair of extracted factor maps; extracted values can only fill factors the
manual responses did not address. -/
theorem manual_response_precedence (responses contract_rf service_rf : RFM)
    (c f : String) (v : Bool)
    (h : getFactorOpt responses c f = some v) :
    getFactorOpt (assess_ict_risk responses contract_rf service_rf).responses c f
      = some v := by
  obtain ⟨r, hE, hlt, hget⟩ := foldl_enrich_inv
    (if contract_rf.isEmpty && service_rf.isEmpty then ([] : RFM)
     else merge_risk_factors contract_rf service_rf)
    (initAState responses) (initAState_inv responses h)
  rw [assess_responses_eq, getFactorOpt, pyGet_viewOuter, hE]
  simpa using hget

theorem manual_response_precedence_witness :
    getFactorOpt
        [("criticality_factors", [("Service is difficult to substitute", false)])]
        "criticality_factors" "Service is difficult to substitute" = some false ∧
    getFactorOpt
      (assess_ict_risk
        [("criticality_factors", [("Service is difficult to substitute", false)])]
        [("criticality_factors", [("Service is difficult to substitute", true)])]
        []).responses
      "criticality_factors" "Service is difficult to substitute" = some false :=
  ⟨by decide,
    manual_response_precedence
      [("criticality_factors", [("Service is difficult to substitute", false)])]
      [("criticality_factors", [("Service is difficult to substitute", true)])]
      [] "criticality_factors" "Service is difficult to substitute" false (by decide)⟩

/-! ### Input mutation -/

/-- Claim C2 fails on the code: the shallow `responses.copy()` on line 179
of app/main.py shares the inner category dictionaries between
`enriched_responses` and the caller's `responses`, so filling an extracted
factor into an existing category writes into the caller's map, and the
returned `original_responses` no longer equals the responses map as it was
passed in.  Here the caller passes an empty criticality category while the
contract extractor reports one factor, and after the call the caller's
map (returned as `original_responses`) holds the extracted factor. -/
theorem assess_ict_risk_mutates_caller :
    ((assess_ict_risk [("criticality_factors", [])]
        [("criticality_factors", [("Service supports critical functions", true)])]
        []).original_responses
      = [("criticality_factors", [("Service supports critical functions", true)])]) ∧
    ([("criticality_factors", [("Service supports critical functions", true)])] : RFM)
      ≠ [("criticality_factors", [])] :=
  ⟨by decide, by decide⟩

/-! ### Auto-detected factor list -/

theorem extractedIf_eq (c s : RFM) :
    (if c.isEmpty && s.isEmpty then ([] : RFM) else merge_risk_factors c s)
      = merge_risk_factors c s := by
  split
  · rename_i hcs
    simp only [Bool.and_eq_true] at hcs
    rw [List.isEmpty_iff.mp hcs.1, List.isEmpty_iff.mp hcs.2]
    rfl
  · rfl

theorem assess_auto_eq (responses contract_rf service_rf : RFM) :
    (assess_ict_risk responses contract_rf service_rf).auto_detected_factors
      = ((merge_risk_factors contract_rf service_rf).flatMap
          (fun cf => (cf.2.filter (fun kv => kv.2)).map (fun kv => kv.1))).dedup := by
  have h0 : (assess_ict_risk responses contract_rf service_rf).auto_detected_factors
      = ((if contract_rf.isEmpty && service_rf.isEmpty then ([] : RFM)
          else merge_risk_factors contract_rf service_rf).flatMap
            (fun cf => (cf.2.filter (fun kv => kv.2)).map (fun kv => kv.1))).dedup := rfl
  rw [h0, extractedIf_eq]

/-- Claim C10: the auto-detected factors field is exactly the
deduplicated set of factor names whose merged extracted value is true,
for every manual responses map (manual overrides do not affect it), and
it is empty when neither a contract analysis nor service details
contribute any extracted factors. -/
theorem auto_detected_factors_exact (responses contract_rf service_rf : RFM) :
    (assess_ict_risk responses [] []).auto_detected_factors = [] ∧
    (assess_ict_risk responses contract_rf service_rf).auto_detected_factors.Nodup ∧
    ∀ f, f ∈ (assess_ict_risk responses contract_rf service_rf).auto_detected_factors ↔
      ∃ cf ∈ merge_risk_factors contract_rf service_rf, (f, true) ∈ cf.2 := by
  refine ⟨rfl, ?_, ?_⟩
  · rw [assess_auto_eq]
    exact List.nodup_dedup _
  · intro f
    rw [assess_auto_eq, List.mem_dedup, List.mem_flatMap]
    constructor
    · rintro ⟨cf, hcf, hf⟩
      obtain ⟨kv, hkv, rfl⟩ := List.mem_map.mp hf
      obtain ⟨hkv2, hkvtrue⟩ := List.mem_filter.mp hkv
      refine ⟨cf, hcf, ?_⟩
      have hkveq : kv = (kv.1, true) := by
        cases kv with
        | mk k b =>
          simp only at hkvtrue
          simp [hkvtrue]
      rwa [hkveq] at hkv2
    · rintro ⟨cf, hcf, hmem⟩
      exact ⟨cf, hcf, List.mem_map.mpr
        ⟨(f, true), List.mem_filter.mpr ⟨hmem, rfl⟩, rfl⟩⟩

/-! ### Classifier round trip -/

theorem classScore_pos (st : TrainedModelState) (v : List Bool)
    (c : RiskClassification) : 0 < classScore st v c := by
  unfold classScore
  have h : (0 : ℚ) ≤ ((st.samples.countP (fun p => p.1 = v && p.2 = c) : Nat) : ℚ) :=
    Nat.cast_nonneg _
  linarith

theorem classScoreTotal_pos (st : TrainedModelState) (v : List Bool) :
    0 < classScoreTotal st v := by
  have h1 := classScore_pos st v .low
  have h2 := classScore_pos st v .medium
  have h3 := classScore_pos st v .high
  have h4 := classScore_pos st v .critical
  simp only [classScoreTotal, allClassifications, List.map_cons, List.map_nil,
    List.sum_cons, List.sum_nil]
  linarith

theorem predict_confidence_pos (cfg : QualifierConfig) (st : TrainedModelState)
    (v : List Bool) : 0 < (predictFromState cfg st v).confidence := by
  show 0 < classScore st v (predictedClass st v) / classScoreTotal st v
  exact div_pos (classScore_pos _ _ _) (classScoreTotal_pos _ _)

theorem one_lt_length_of_mem_ne {α : Type} {a b : α} {l : List α}
    (ha : a ∈ l) (hb : b ∈ l) (hab : a ≠ b) : 1 < l.length := by
  cases l with
  | nil => simp at ha
  | cons x rest =>
    cases rest with
    | nil =>
      simp only [List.mem_singleton] at ha hb
      exact absurd (ha.trans hb.symm) hab
    | cons y rest2 =>
      simp only [List.length_cons]
      omega

/-- Claim C9: training a fresh classifier on any dataset of at least 100
samples in which all four classification labels are present returns a
success status; immediately afterwards the model reports trained, and
predicting on any sample drawn from the synthetic generator succeeds with
a label whose confidence is strictly positive. -/
theorem classifier_round_trip (cfg : QualifierConfig)
    (samples : List (RFM × RiskClassification))
    (hlen : 100 ≤ samples.length)
    (hlow : RiskClassification.low ∈ samples.map (fun p => p.2))
    (_hmed : RiskClassification.medium ∈ samples.map (fun p => p.2))
    (_hhigh : RiskClassification.high ∈ samples.map (fun p => p.2))
    (hcrit : RiskClassification.critical ∈ samples.map (fun p => p.2)) :
    (train cfg freshUntrained samples).1.status = TrainStatus.success ∧
    is_model_trained (train cfg freshUntrained samples).2 = true ∧
    ∀ n seed g, g ∈ generate_synthetic_training_data cfg n seed →
      ∃ pr, predict_risk cfg (train cfg freshUntrained samples).2 g.1 =
          Except.ok pr ∧ 0 < pr.confidence := by
  have h1 : ¬ samples.length < minTrainingSamples := by
    unfold minTrainingSamples
    omega
  have h2 : ¬ ((samples.map (fun p => p.2)).dedup.length ≤ 1) := by
    intro hle
    have hl := List.mem_dedup.mpr hlow
    have hc := List.mem_dedup.mpr hcrit
    have := one_lt_length_of_mem_ne hl hc (by decide)
    omega
  unfold train
  rw [if_neg h1, if_neg h2]
  refine ⟨rfl, rfl, ?_⟩
  intro n seed g hg
  exact ⟨_, rfl, predict_confidence_pos _ _ _⟩

theorem classifier_round_trip_witness :
    100 ≤ fourLabelSamples.length ∧
    (train defaultQualifierConfig freshUntrained fourLabelSamples).1.status
      = TrainStatus.success ∧
    is_model_trained (train defaultQualifierConfig freshUntrained fourLabelSamples).2
      = true := by
  refine ⟨by decide, ?_, ?_⟩
  · exact (classifier_round_trip defaultQualifierConfig fourLabelSamples
      (by decide) (by decide) (by decide) (by decide) (by decide)).1
  · exact (classifier_round_trip defaultQualifierConfig fourLabelSamples
      (by decide) (by decide) (by decide) (by decide) (by decide)).2.1

end Audris
